import Mathlib

/-!
# ChainMail ledger contract — shallow embedding

Shallow embedding of the Solidity contract `ChainMail` (append-only
on-chain email index, public-key registry, relay authorization) and of
the relay HTTP endpoint `POST /api/relay/send-email`.

Addresses are modelled as `Nat` (the zero address is `0`), `uint256`
values as `Nat` with the Solidity 0.8 checked-arithmetic overflow guard
made explicit, strings as Lean `String` (the Solidity check
`bytes(s).length > 0` coincides with nonemptiness), and reverting calls
as `Except String`: an `Except.error` result models a reverted
transaction, which leaves the contract state unchanged by construction.
-/

namespace ChainMail

/-- Modulus of Solidity `uint256`. `emailCount++` under Solidity 0.8
checked arithmetic reverts when the incremented value would not fit. -/
def UINT256 : Nat := 2 ^ 256

/-- The `Email` struct of the contract. -/
structure Email where
  sender : Nat
  recipient : Nat
  ipfsHash : String
  timestamp : Nat
  isImmutable : Bool
deriving Repr, DecidableEq

/-- Default value of an `Email` storage slot (all fields zeroed),
what `emails[id]` holds before any write. -/
def emptyEmail : Email :=
  { sender := 0, recipient := 0, ipfsHash := "", timestamp := 0, isImmutable := false }

/-- The contract storage: `emails`, `emailCount`, `recipientEmails`,
`senderEmails`, `publicKeys`, `owner`, `relayAddress`.  Solidity
mappings are total functions returning the zero value on unset keys. -/
structure State where
  emails : Nat → Email
  emailCount : Nat
  recipientEmails : Nat → List Nat
  senderEmails : Nat → List Nat
  publicKeys : Nat → String
  owner : Nat
  relayAddress : Nat

/-- `constructor(address _relayAddress)`: sets `owner = msg.sender`,
`relayAddress = _relayAddress`; every other slot starts zeroed. -/
def deploy (msgSender relayAddr : Nat) : State :=
  { emails := fun _ => emptyEmail
    emailCount := 0
    recipientEmails := fun _ => []
    senderEmails := fun _ => []
    publicKeys := fun _ => ""
    owner := msgSender
    relayAddress := relayAddr }

/-- `setRelayAddress` (modifier `onlyOwner`, then the zero-address check). -/
def setRelayAddress (st : State) (msgSender relayAddr : Nat) : Except String State :=
  if msgSender ≠ st.owner then Except.error "Not contract owner"
  else if relayAddr = 0 then Except.error "Invalid relay address"
  else Except.ok { st with relayAddress := relayAddr }

/-- `transferOwnership` (modifier `onlyOwner`, then the zero-address check). -/
def transferOwnership (st : State) (msgSender newOwner : Nat) : Except String State :=
  if msgSender ≠ st.owner then Except.error "Not contract owner"
  else if newOwner = 0 then Except.error "Invalid owner address"
  else Except.ok { st with owner := newOwner }

/-- Internal `_logEmail`: validation requires, checked increment of
`emailCount`, record write, index appends.  Returns the new id. -/
def logEmail (st : State) (sender recipient : Nat) (ipfsHash : String)
    (blockTimestamp : Nat) : Except String (Nat × State) :=
  if sender = 0 then Except.error "Invalid sender address"
  else if recipient = 0 then Except.error "Invalid recipient address"
  else if ipfsHash.length = 0 then Except.error "IPFS hash cannot be empty"
  else if UINT256 ≤ st.emailCount + 1 then Except.error "Panic(0x11)"
  else
    let emailId := st.emailCount + 1
    let email : Email :=
      { sender := sender, recipient := recipient, ipfsHash := ipfsHash
        timestamp := blockTimestamp, isImmutable := true }
    Except.ok (emailId,
      { st with
        emailCount := emailId
        emails := fun i => if i = emailId then email else st.emails i
        recipientEmails := fun a =>
          if a = recipient then st.recipientEmails a ++ [emailId] else st.recipientEmails a
        senderEmails := fun a =>
          if a = sender then st.senderEmails a ++ [emailId] else st.senderEmails a })

/-- `logSend(recipient, ipfsHash)`: caller is the sender. -/
def logSend (st : State) (msgSender recipient : Nat) (ipfsHash : String)
    (blockTimestamp : Nat) : Except String (Nat × State) :=
  logEmail st msgSender recipient ipfsHash blockTimestamp

/-- `logSendFor(sender, recipient, ipfsHash)` with modifier `onlyRelay`. -/
def logSendFor (st : State) (msgSender sender recipient : Nat) (ipfsHash : String)
    (blockTimestamp : Nat) : Except String (Nat × State) :=
  if msgSender ≠ st.relayAddress then Except.error "Not authorized relay"
  else logEmail st sender recipient ipfsHash blockTimestamp

/-- Internal `_setPublicKey`: validation, then overwrite of `publicKeys[_user]`. -/
def setPublicKey (st : State) (user : Nat) (publicKey : String) : Except String State :=
  if user = 0 then Except.error "Invalid user address"
  else if publicKey.length = 0 then Except.error "Public key cannot be empty"
  else Except.ok { st with
    publicKeys := fun a => if a = user then publicKey else st.publicKeys a }

/-- `registerPublicKey(key)`: caller registers their own key. -/
def registerPublicKey (st : State) (msgSender : Nat) (publicKey : String) :
    Except String State :=
  setPublicKey st msgSender publicKey

/-- `registerPublicKeyFor(user, key)` with modifier `onlyRelay`. -/
def registerPublicKeyFor (st : State) (msgSender user : Nat) (publicKey : String) :
    Except String State :=
  if msgSender ≠ st.relayAddress then Except.error "Not authorized relay"
  else setPublicKey st user publicKey

/-- `getEmail(id)`: requires `id > 0 && id <= emailCount`, then returns the
record's fields as a tuple `(sender, recipient, ipfsHash, timestamp, isImmutable)`. -/
def getEmail (st : State) (emailId : Nat) :
    Except String (Nat × Nat × String × Nat × Bool) :=
  if 0 < emailId ∧ emailId ≤ st.emailCount then
    let email := st.emails emailId
    Except.ok (email.sender, email.recipient, email.ipfsHash, email.timestamp,
      email.isImmutable)
  else Except.error "Invalid email ID"

/-- `getRecipientEmails(account)`. -/
def getRecipientEmails (st : State) (recipient : Nat) : List Nat :=
  st.recipientEmails recipient

/-- `getSenderEmails(account)`. -/
def getSenderEmails (st : State) (sender : Nat) : List Nat :=
  st.senderEmails sender

/-- `getPublicKey(account)`: plain mapping read, empty string when unset. -/
def getPublicKey (st : State) (user : Nat) : String :=
  st.publicKeys user

/-- `getTotalEmails()`. -/
def getTotalEmails (st : State) : Nat :=
  st.emailCount

/-- One call to a public state-mutating entry point of the contract,
tagged with its caller (`msg.sender`). -/
inductive Call where
  | callLogSend (msgSender recipient : Nat) (ipfsHash : String)
  | callLogSendFor (msgSender sender recipient : Nat) (ipfsHash : String)
  | callRegisterPublicKey (msgSender : Nat) (publicKey : String)
  | callRegisterPublicKeyFor (msgSender user : Nat) (publicKey : String)
  | callSetRelayAddress (msgSender relayAddr : Nat)
  | callTransferOwnership (msgSender newOwner : Nat)

/-- Execute one public state-mutating call at block timestamp `ts`,
returning the post state (return values dropped). -/
def applyCall (st : State) (ts : Nat) : Call → Except String State
  | .callLogSend ms r h => (logSend st ms r h ts).map Prod.snd
  | .callLogSendFor ms s r h => (logSendFor st ms s r h ts).map Prod.snd
  | .callRegisterPublicKey ms k => registerPublicKey st ms k
  | .callRegisterPublicKeyFor ms u k => registerPublicKeyFor st ms u k
  | .callSetRelayAddress ms a => setRelayAddress st ms a
  | .callTransferOwnership ms a => transferOwnership st ms a

/-- How many email submissions a call performs (1 for `logSend` and
`logSendFor`, 0 for every other entry point). -/
def submissionCount : Call → Nat
  | .callLogSend .. => 1
  | .callLogSendFor .. => 1
  | _ => 0

/-- `Reach st0 n st`: `st` results from `st0` by a sequence of successful
public calls — any callers, any order, any block timestamps — of which
exactly `n` were email submissions (`logSend` or `logSendFor`). -/
inductive Reach : State → Nat → State → Prop where
  | refl (st : State) : Reach st 0 st
  | step {st0 st st' : State} {n : Nat} (c : Call) (ts : Nat) :
      Reach st0 n st → applyCall st ts c = Except.ok st' →
      Reach st0 (n + submissionCount c) st'

/-- The index invariant: each per-address index holds exactly the ids in
`[1, emailCount]` whose stored record names that address, in ascending
(creation) order. -/
def indexInv (st : State) : Prop :=
  (∀ r, st.recipientEmails r =
    (List.range' 1 st.emailCount).filter (fun i => (st.emails i).recipient == r)) ∧
  (∀ s, st.senderEmails s =
    (List.range' 1 st.emailCount).filter (fun i => (st.emails i).sender == s))

/-- The state after deploying with owner 1, relay 2, and one successful
`logSend(6, "Qm")` from caller 5 at block timestamp 10. -/
def demoState : State :=
  { emails := fun i =>
      if i = 1 then
        { sender := 5, recipient := 6, ipfsHash := "Qm", timestamp := 10
          isImmutable := true }
      else emptyEmail
    emailCount := 1
    recipientEmails := fun a => if a = 6 then [1] else []
    senderEmails := fun a => if a = 5 then [1] else []
    publicKeys := fun _ => ""
    owner := 1
    relayAddress := 2 }

/-- The state after deploying with owner 1, relay 2, and account 5
registering public key "A". -/
def demoKeyState1 : State :=
  { deploy 1 2 with
    publicKeys := fun a => if a = 5 then "A" else (deploy 1 2).publicKeys a }

/-- `demoKeyState1` after account 5 re-registers with public key "B". -/
def demoKeyState2 : State :=
  { demoKeyState1 with
    publicKeys := fun a => if a = 5 then "B" else demoKeyState1.publicKeys a }

end ChainMail

namespace RelayApi

/-!
Shallow embedding of `src/my-app/src/app/api/relay/send-email/route.ts`
(`POST` handler).  The JavaScript truthiness test `!s` on a string-typed
value is false exactly when the value is present and non-empty, so such
values are modelled as `Option String` with `none` for absent.  The
relay balance is modelled in wei; the guard
`parseFloat(ethers.formatEther(balance)) < 0.001` coincides with
`balance < 10^15` wei, because distinct wei amounts are at least
`10^-18` ether apart while double rounding of the exact decimal strings
produced by `formatEther` perturbs each value by less than `2^-61`
ether near `0.001`, so the rounding never crosses the threshold.
External effects that can throw (`provider.getBalance`, the
`logSendFor` transaction) are modelled as `Except String` inputs; the
surrounding `try/catch` returns the thrown message in the body. -/

/-- Truthiness of an optional string: JS `!x` for an `x` that is
`undefined` or a string. -/
def falsy : Option String → Bool
  | none => true
  | some s => s.length = 0

/-- Receipt data the handler extracts from a confirmed transaction. -/
structure TxReceipt where
  emailId : Nat
  txHash : String
  gasUsed : Nat
deriving Repr, DecidableEq

/-- The request body fields read by the handler. -/
structure SendRequest where
  recipientAddress : Option String
  ipfsHash : Option String
  userAddress : Option String
deriving Repr, DecidableEq

/-- Environment of one handler invocation: configuration read from
`process.env` and the outcomes of the two external calls it may make. -/
structure Env where
  relayPrivateKey : Option String
  rpcUrl : Option String
  contractAddress : Option String
  getBalance : Except String Nat
  sendTx : Except String TxReceipt
deriving Repr

/-- An HTTP JSON response as the handler builds it. -/
structure Response where
  status : Nat
  error : Option String
  success : Bool
  emailId : Nat
  transactionHash : String
  gasUsed : Nat
deriving Repr, DecidableEq

/-- `NextResponse.json({ error }, { status })`. -/
def errorResponse (status : Nat) (msg : String) : Response :=
  { status := status, error := some msg, success := false, emailId := 0
    transactionHash := "", gasUsed := 0 }

/-- The minimum relay balance enforced by the handler, in wei
(`0.001` ether). -/
def minBalanceWei : Nat := 10 ^ 15

/-- The `POST` handler of the relay send-email endpoint. -/
def sendEmailPOST (req : SendRequest) (env : Env) : Response :=
  if falsy req.recipientAddress || falsy req.ipfsHash || falsy req.userAddress then
    errorResponse 400 "Missing required fields"
  else if falsy env.relayPrivateKey ||
      env.relayPrivateKey == some "your_relay_wallet_private_key_here" then
    errorResponse 500 "Relay wallet not configured"
  else if falsy env.rpcUrl || falsy env.contractAddress then
    errorResponse 500 "Blockchain configuration missing"
  else
    match env.getBalance with
    | Except.error e => errorResponse 500 e
    | Except.ok balance =>
      if balance < minBalanceWei then
        errorResponse 500 "Relay wallet balance too low"
      else
        match env.sendTx with
        | Except.error e => errorResponse 500 e
        | Except.ok receipt =>
          { status := 200, error := none, success := true
            emailId := receipt.emailId, transactionHash := receipt.txHash
            gasUsed := receipt.gasUsed }

end RelayApi

/-! ## Characterization lemmas for the contract operations -/

namespace ChainMail

/-- `logEmail` succeeds exactly on valid inputs (below the counter
bound), and then the id and the post state are determined. -/
theorem logEmail_ok_iff (st : State) (s r : Nat) (h : String) (ts : Nat)
    (emailId : Nat) (st' : State) :
    logEmail st s r h ts = Except.ok (emailId, st') ↔
      (s ≠ 0 ∧ r ≠ 0 ∧ h.length ≠ 0 ∧ st.emailCount + 1 < UINT256 ∧
       emailId = st.emailCount + 1 ∧
       st' = { st with
         emailCount := st.emailCount + 1
         emails := fun i =>
           if i = st.emailCount + 1 then
             { sender := s, recipient := r, ipfsHash := h, timestamp := ts
               isImmutable := true }
           else st.emails i
         recipientEmails := fun a =>
           if a = r then st.recipientEmails a ++ [st.emailCount + 1]
           else st.recipientEmails a
         senderEmails := fun a =>
           if a = s then st.senderEmails a ++ [st.emailCount + 1]
           else st.senderEmails a }) := by
  unfold logEmail
  by_cases hs : s = 0
  · simp [hs]
  · by_cases hr : r = 0
    · simp [hs, hr]
    · by_cases hh : h.length = 0
      · simp [hs, hr, hh]
      · by_cases hof : UINT256 ≤ st.emailCount + 1
        · simp only [if_neg hs, if_neg hr, if_neg hh, if_pos hof]
          constructor
          · intro heq
            cases heq
          · rintro ⟨-, -, -, hlt, -, -⟩
            omega
        · simp only [if_neg hs, if_neg hr, if_neg hh, if_neg hof]
          constructor
          · intro heq
            injection heq with hpair
            injection hpair with h1 h2
            exact ⟨hs, hr, hh, by omega, h1.symm, h2.symm⟩
          · rintro ⟨-, -, -, -, rfl, rfl⟩
            rfl

/-- `logEmail` rejects exactly when a validation precondition fails (below
the counter bound). -/
theorem logEmail_error_iff (st : State) (s r : Nat) (h : String) (ts : Nat)
    (hof : st.emailCount + 1 < UINT256) :
    (∃ e, logEmail st s r h ts = Except.error e) ↔
      (s = 0 ∨ r = 0 ∨ h.length = 0) := by
  unfold logEmail
  by_cases hs : s = 0
  · simp [hs]
  · by_cases hr : r = 0
    · simp [hs, hr]
    · by_cases hh : h.length = 0
      · simp [hs, hr, hh]
      · simp [hs, hr, hh, Nat.not_le.mpr hof]

/-- `setPublicKey` succeeds exactly on a non-zero user and non-empty key,
and then the post state is the single-slot overwrite. -/
theorem setPublicKey_ok_iff (st : State) (u : Nat) (k : String) (st' : State) :
    setPublicKey st u k = Except.ok st' ↔
      (u ≠ 0 ∧ k.length ≠ 0 ∧
       st' = { st with
         publicKeys := fun a => if a = u then k else st.publicKeys a }) := by
  unfold setPublicKey
  by_cases hu : u = 0
  · simp [hu]
  · by_cases hk : k.length = 0
    · simp [hu, hk]
    · simp only [if_neg hu, if_neg hk]
      constructor
      · intro heq
        injection heq with h1
        exact ⟨hu, hk, h1.symm⟩
      · rintro ⟨-, -, rfl⟩
        rfl

/-- `setPublicKey` rejects exactly when a validation precondition fails. -/
theorem setPublicKey_error_iff (st : State) (u : Nat) (k : String) :
    (∃ e, setPublicKey st u k = Except.error e) ↔ (u = 0 ∨ k.length = 0) := by
  unfold setPublicKey
  by_cases hu : u = 0
  · simp [hu]
  · by_cases hk : k.length = 0
    · simp [hu, hk]
    · simp [hu, hk]

/-- `setRelayAddress` succeeds exactly for the owner with a non-zero
argument, and then only `relayAddress` changes. -/
theorem setRelayAddress_ok_iff (st : State) (ms a : Nat) (st' : State) :
    setRelayAddress st ms a = Except.ok st' ↔
      (ms = st.owner ∧ a ≠ 0 ∧ st' = { st with relayAddress := a }) := by
  unfold setRelayAddress
  by_cases hms : ms = st.owner
  · subst hms
    by_cases ha : a = 0
    · simp [ha]
    · rw [if_neg (by simp), if_neg ha]
      constructor
      · intro heq
        injection heq with h1
        exact ⟨rfl, ha, h1.symm⟩
      · rintro ⟨-, -, rfl⟩
        rfl
  · rw [if_pos hms]
    constructor
    · intro heq
      cases heq
    · rintro ⟨h1, -, -⟩
      exact absurd h1 hms

/-- `transferOwnership` succeeds exactly for the owner with a non-zero
argument, and then only `owner` changes. -/
theorem transferOwnership_ok_iff (st : State) (ms a : Nat) (st' : State) :
    transferOwnership st ms a = Except.ok st' ↔
      (ms = st.owner ∧ a ≠ 0 ∧ st' = { st with owner := a }) := by
  unfold transferOwnership
  by_cases hms : ms = st.owner
  · subst hms
    by_cases ha : a = 0
    · simp [ha]
    · rw [if_neg (by simp), if_neg ha]
      constructor
      · intro heq
        injection heq with h1
        exact ⟨rfl, ha, h1.symm⟩
      · rintro ⟨-, -, rfl⟩
        rfl
  · rw [if_pos hms]
    constructor
    · intro heq
      cases heq
    · rintro ⟨h1, -, -⟩
      exact absurd h1 hms

/-- A mapped `Except` projecting the state component is `ok` exactly when
the underlying call is `ok` with some first component. -/
theorem exceptMap_snd_ok {α β : Type} {x : Except String (α × β)} {b : β} :
    x.map Prod.snd = Except.ok b ↔ ∃ a, x = Except.ok (a, b) := by
  cases x with
  | error e => simp [Except.map]
  | ok p =>
    cases p with
    | mk p1 p2 => simp [Except.map]

/-! ## Claim theorems -/

/-- C1: for every valid input (non-zero sender and recipient, non-empty
content pointer) and any state whose counter can still be incremented,
`logSend(recipient, contentPointer)` from caller `sender` returns an id
such that `getEmail(id)` afterwards returns exactly
`(sender, recipient, contentPointer)`, the block timestamp of the
creating transaction, and `isImmutable = true`. -/
theorem logSend_getEmail_roundtrip (st : State) (sender recipient : Nat)
    (contentPointer : String) (ts : Nat)
    (hs : sender ≠ 0) (hr : recipient ≠ 0) (hh : contentPointer.length ≠ 0)
    (hof : st.emailCount + 1 < UINT256) :
    ∃ emailId st',
      logSend st sender recipient contentPointer ts = Except.ok (emailId, st') ∧
      getEmail st' emailId =
        Except.ok (sender, recipient, contentPointer, ts, true) := by
  refine ⟨st.emailCount + 1,
    { st with
      emailCount := st.emailCount + 1
      emails := fun i =>
        if i = st.emailCount + 1 then
          { sender := sender, recipient := recipient, ipfsHash := contentPointer
            timestamp := ts, isImmutable := true }
        else st.emails i
      recipientEmails := fun a =>
        if a = recipient then st.recipientEmails a ++ [st.emailCount + 1]
        else st.recipientEmails a
      senderEmails := fun a =>
        if a = sender then st.senderEmails a ++ [st.emailCount + 1]
        else st.senderEmails a }, ?_, ?_⟩
  · exact (logEmail_ok_iff st sender recipient contentPointer ts _ _).mpr
      ⟨hs, hr, hh, hof, rfl, rfl⟩
  · unfold getEmail
    rw [if_pos ⟨Nat.succ_pos _, le_refl _⟩]
    simp

/-- Witness for C1 at a concrete input. -/
theorem logSend_getEmail_roundtrip_witness :
    ∃ emailId st',
      logSend (deploy 1 2) 5 6 "Qm" 10 = Except.ok (emailId, st') ∧
      getEmail st' emailId = Except.ok (5, 6, "Qm", 10, true) :=
  logSend_getEmail_roundtrip (deploy 1 2) 5 6 "Qm" 10 (by decide) (by decide)
    (by decide) (by decide)

/-- C4: the relay-gated entry points reject any caller other than the
current `relayAddress` with the authorization error (and, in this
embedding, an error carries no post state: the transaction reverts
unapplied), while `logSend` and `registerPublicKey` succeed for every
caller acting as themselves, given valid arguments and a counter below
the `uint256` bound. -/
theorem relayOnlyAuthorization (st : State) (ms s r u : Nat) (h k : String)
    (ts : Nat) (caller recipient : Nat)
    (hms : ms ≠ st.relayAddress) (hc : caller ≠ 0) (hrec : recipient ≠ 0)
    (hh : h.length ≠ 0) (hk : k.length ≠ 0) (hof : st.emailCount + 1 < UINT256) :
    logSendFor st ms s r h ts = Except.error "Not authorized relay" ∧
    registerPublicKeyFor st ms u k = Except.error "Not authorized relay" ∧
    (∃ emailId st', logSend st caller recipient h ts = Except.ok (emailId, st')) ∧
    (∃ st', registerPublicKey st caller k = Except.ok st') := by
  refine ⟨?_, ?_, ?_, ?_⟩
  · unfold logSendFor
    rw [if_pos hms]
  · unfold registerPublicKeyFor
    rw [if_pos hms]
  · exact ⟨_, _, (logEmail_ok_iff st caller recipient h ts _ _).mpr
      ⟨hc, hrec, hh, hof, rfl, rfl⟩⟩
  · exact ⟨_, (setPublicKey_ok_iff st caller k _).mpr ⟨hc, hk, rfl⟩⟩

/-- Witness for C4 at a concrete input. -/
theorem relayOnlyAuthorization_witness :
    logSendFor (deploy 1 2) 7 5 6 "Qm" 10 = Except.error "Not authorized relay" ∧
    registerPublicKeyFor (deploy 1 2) 7 5 "K" = Except.error "Not authorized relay" ∧
    (∃ emailId st', logSend (deploy 1 2) 5 6 "Qm" 10 = Except.ok (emailId, st')) ∧
    (∃ st', registerPublicKey (deploy 1 2) 5 "K" = Except.ok st') :=
  relayOnlyAuthorization (deploy 1 2) 7 5 6 5 "Qm" "K" 10 5 6 (by decide)
    (by decide) (by decide) (by decide) (by decide) (by decide)

/-- C5: with authorization granted and the counter below the `uint256`
bound, a submission rejects exactly when the sender is zero, the
recipient is zero, or the content pointer is empty; key registration
rejects exactly when the account is zero or the key empty.  In this
embedding every rejection is an `Except.error` carrying no post state,
so a rejected call leaves the entire contract state unchanged — there is
no partial update of `emailCount`, `emails`, or either index. -/
theorem validationRejectionIff (st : State) (ms s r u : Nat) (h k : String)
    (ts : Nat) (hof : st.emailCount + 1 < UINT256) (hms : ms = st.relayAddress) :
    ((∃ e, logSend st s r h ts = Except.error e) ↔
      (s = 0 ∨ r = 0 ∨ h.length = 0)) ∧
    ((∃ e, logSendFor st ms s r h ts = Except.error e) ↔
      (s = 0 ∨ r = 0 ∨ h.length = 0)) ∧
    ((∃ e, registerPublicKey st u k = Except.error e) ↔
      (u = 0 ∨ k.length = 0)) ∧
    ((∃ e, registerPublicKeyFor st ms u k = Except.error e) ↔
      (u = 0 ∨ k.length = 0)) := by
  subst hms
  refine ⟨?_, ?_, ?_, ?_⟩
  · exact logEmail_error_iff st s r h ts hof
  · unfold logSendFor
    rw [if_neg (by simp)]
    exact logEmail_error_iff st s r h ts hof
  · exact setPublicKey_error_iff st u k
  · unfold registerPublicKeyFor
    rw [if_neg (by simp)]
    exact setPublicKey_error_iff st u k

/-- Witness for C5 at a concrete input. -/
theorem validationRejectionIff_witness :
    (∃ e, logSend (deploy 1 2) 0 6 "Qm" 10 = Except.error e) ↔
      (0 = 0 ∨ 6 = 0 ∨ "Qm".length = 0) :=
  (validationRejectionIff (deploy 1 2) 2 0 6 5 "Qm" "K" 10 (by decide) rfl).1

/-- C7: registering key A then key B for the same account leaves
`getPublicKey` returning exactly B; the resulting state holds B in that
account's slot and is otherwise identical to the starting state, so no
operation of the contract can retrieve the overwritten A; and an account
that never registered reads back the empty string. -/
theorem publicKeyLastWriteWins (st st1 st2 : State) (u : Nat) (keyA keyB : String)
    (h1 : registerPublicKey st u keyA = Except.ok st1)
    (h2 : registerPublicKey st1 u keyB = Except.ok st2) :
    getPublicKey st2 u = keyB ∧
    (∀ a, st2.publicKeys a = if a = u then keyB else st.publicKeys a) ∧
    st2.emails = st.emails ∧ st2.emailCount = st.emailCount ∧
    st2.recipientEmails = st.recipientEmails ∧
    st2.senderEmails = st.senderEmails ∧
    st2.owner = st.owner ∧ st2.relayAddress = st.relayAddress ∧
    (∀ d rl a, getPublicKey (deploy d rl) a = "") := by
  obtain ⟨-, -, rfl⟩ := (setPublicKey_ok_iff st u keyA st1).mp h1
  obtain ⟨-, -, rfl⟩ := (setPublicKey_ok_iff _ u keyB st2).mp h2
  refine ⟨?_, ?_, rfl, rfl, rfl, rfl, rfl, rfl, fun d rl a => rfl⟩
  · simp [getPublicKey]
  · intro a
    by_cases ha : a = u <;> simp [ha]

/-- Witness for C7 at a concrete input. -/
theorem publicKeyLastWriteWins_witness :
    getPublicKey demoKeyState2 5 = "B" :=
  (publicKeyLastWriteWins (deploy 1 2) demoKeyState1 demoKeyState2 5 "A" "B"
    rfl rfl).1

/-- C8: `setRelayAddress` and `transferOwnership` reject non-owner
callers and the zero argument (the error carries no post state: the
transaction reverts unapplied); called by the owner with a non-zero
argument they succeed, and afterwards exactly the new relay passes the
relay check of `logSendFor`/`registerPublicKeyFor`, respectively exactly
the new owner passes the owner check of the admin operations. -/
theorem adminOperations (st : State) (n : Nat) :
    (∀ c, c ≠ st.owner →
      setRelayAddress st c n = Except.error "Not contract owner") ∧
    (∀ c, c ≠ st.owner →
      transferOwnership st c n = Except.error "Not contract owner") ∧
    setRelayAddress st st.owner 0 = Except.error "Invalid relay address" ∧
    transferOwnership st st.owner 0 = Except.error "Invalid owner address" ∧
    (n ≠ 0 →
      ∃ st', setRelayAddress st st.owner n = Except.ok st' ∧
        st'.relayAddress = n ∧ st'.owner = st.owner ∧
        (∀ c s r h ts, c ≠ n →
          logSendFor st' c s r h ts = Except.error "Not authorized relay") ∧
        (∀ c u k, c ≠ n →
          registerPublicKeyFor st' c u k = Except.error "Not authorized relay") ∧
        (∀ s r h ts, s ≠ 0 → r ≠ 0 → h.length ≠ 0 →
          st'.emailCount + 1 < UINT256 →
          ∃ emailId st2, logSendFor st' n s r h ts = Except.ok (emailId, st2))) ∧
    (n ≠ 0 →
      ∃ st', transferOwnership st st.owner n = Except.ok st' ∧
        st'.owner = n ∧ st'.relayAddress = st.relayAddress ∧
        (∀ c m, c ≠ n →
          setRelayAddress st' c m = Except.error "Not contract owner") ∧
        (∀ c m, c ≠ n →
          transferOwnership st' c m = Except.error "Not contract owner") ∧
        (∀ m, m ≠ 0 → ∃ st2, setRelayAddress st' n m = Except.ok st2)) := by
  refine ⟨?_, ?_, ?_, ?_, ?_, ?_⟩
  · intro c hc
    unfold setRelayAddress
    rw [if_pos hc]
  · intro c hc
    unfold transferOwnership
    rw [if_pos hc]
  · unfold setRelayAddress
    rw [if_neg (by simp), if_pos rfl]
  · unfold transferOwnership
    rw [if_neg (by simp), if_pos rfl]
  · intro hn
    refine ⟨{ st with relayAddress := n },
      (setRelayAddress_ok_iff st st.owner n _).mpr ⟨rfl, hn, rfl⟩,
      rfl, rfl, ?_, ?_, ?_⟩
    · intro c s r h ts hc
      unfold logSendFor
      rw [if_pos hc]
    · intro c u k hc
      unfold registerPublicKeyFor
      rw [if_pos hc]
    · intro s r h ts hs hr hh hof
      refine ⟨st.emailCount + 1,
        { st with
          relayAddress := n
          emailCount := st.emailCount + 1
          emails := fun i =>
            if i = st.emailCount + 1 then
              { sender := s, recipient := r, ipfsHash := h, timestamp := ts
                isImmutable := true }
            else st.emails i
          recipientEmails := fun a =>
            if a = r then st.recipientEmails a ++ [st.emailCount + 1]
            else st.recipientEmails a
          senderEmails := fun a =>
            if a = s then st.senderEmails a ++ [st.emailCount + 1]
            else st.senderEmails a }, ?_⟩
      unfold logSendFor
      rw [if_neg (by simp)]
      exact (logEmail_ok_iff _ s r h ts _ _).mpr ⟨hs, hr, hh, hof, rfl, rfl⟩
  · intro hn
    refine ⟨{ st with owner := n },
      (transferOwnership_ok_iff st st.owner n _).mpr ⟨rfl, hn, rfl⟩,
      rfl, rfl, ?_, ?_, ?_⟩
    · intro c m hc
      unfold setRelayAddress
      rw [if_pos hc]
    · intro c m hc
      unfold transferOwnership
      rw [if_pos hc]
    · intro m hm
      exact ⟨_, (setRelayAddress_ok_iff _ n m _).mpr ⟨rfl, hm, rfl⟩⟩

/-- Witness for C8 at a concrete input. -/
theorem adminOperations_witness :
    setRelayAddress (deploy 1 2) 7 9 = Except.error "Not contract owner" ∧
    setRelayAddress (deploy 1 2) 1 0 = Except.error "Invalid relay address" :=
  ⟨(adminOperations (deploy 1 2) 9).1 7 (by decide),
   (adminOperations (deploy 1 2) 9).2.2.1⟩

/-- C10: the constructor accepts any relay argument, including the zero
address, so a deployment can start with `relayAddress = 0`; for every
deployment argument the post-deployment state has `owner = deployer` and
`relayAddress` equal to that argument — even though `setRelayAddress`
itself rejects the zero address. -/
theorem constructorAllowsZeroRelay (deployer relayAddr : Nat) :
    (deploy deployer relayAddr).owner = deployer ∧
    (deploy deployer relayAddr).relayAddress = relayAddr ∧
    (deploy deployer 0).relayAddress = 0 ∧
    (∀ st : State,
      setRelayAddress st st.owner 0 = Except.error "Invalid relay address") := by
  refine ⟨rfl, rfl, rfl, fun st => ?_⟩
  unfold setRelayAddress
  rw [if_neg (by simp), if_pos rfl]

/-- Appending one id to `[1, c]` splits a filter over the extended
record table into the old filter plus the possible new id. -/
theorem filter_range'_snoc (c : Nat) (em : Email) (f : Nat → Email)
    (p : Email → Nat) (a : Nat) :
    (List.range' 1 (c + 1)).filter
        (fun i => p (if i = c + 1 then em else f i) == a) =
      ((List.range' 1 c).filter (fun i => p (f i) == a)) ++
        (if p em = a then [c + 1] else []) := by
  rw [List.range'_concat]
  have h1c : 1 + 1 * c = c + 1 := by omega
  rw [h1c, List.filter_append]
  congr 1
  · refine List.filter_congr ?_
    intro i hi
    rw [List.mem_range'_1] at hi
    have hne : i ≠ c + 1 := by omega
    simp [hne]
  · simp only [List.filter_cons, List.filter_nil]
    by_cases hpa : p em = a
    · simp [hpa]
    · simp [hpa]

/-- A successful `logEmail` leaves all previously stored records in
place, appends at most one id to each index list, and increments the
counter by exactly one. -/
theorem logEmail_frame {st st' : State} {s r emailId : Nat} {h : String}
    {ts : Nat} (hok : logEmail st s r h ts = Except.ok (emailId, st')) :
    (∀ i, i ≤ st.emailCount → st'.emails i = st.emails i) ∧
    (∀ a, ∃ t, st'.recipientEmails a = st.recipientEmails a ++ t) ∧
    (∀ a, ∃ t, st'.senderEmails a = st.senderEmails a ++ t) ∧
    st'.emailCount = st.emailCount + 1 := by
  obtain ⟨-, -, -, -, -, rfl⟩ := (logEmail_ok_iff st s r h ts emailId st').mp hok
  refine ⟨?_, ?_, ?_, rfl⟩
  · intro i hi
    have hne : i ≠ st.emailCount + 1 := by omega
    simp [hne]
  · intro a
    by_cases ha : a = r
    · exact ⟨[st.emailCount + 1], by simp [ha]⟩
    · exact ⟨[], by simp [ha]⟩
  · intro a
    by_cases ha : a = s
    · exact ⟨[st.emailCount + 1], by simp [ha]⟩
    · exact ⟨[], by simp [ha]⟩

/-- A successful `logEmail` preserves the index invariant. -/
theorem logEmail_indexInv {st st' : State} {s r emailId : Nat} {h : String}
    {ts : Nat} (hok : logEmail st s r h ts = Except.ok (emailId, st'))
    (hinv : indexInv st) : indexInv st' := by
  obtain ⟨-, -, -, -, -, rfl⟩ := (logEmail_ok_iff st s r h ts emailId st').mp hok
  obtain ⟨hrec, hsend⟩ := hinv
  refine ⟨fun a => ?_, fun a => ?_⟩
  · show (if a = r then st.recipientEmails a ++ [st.emailCount + 1]
        else st.recipientEmails a) =
      (List.range' 1 (st.emailCount + 1)).filter
        (fun i => Email.recipient (if i = st.emailCount + 1 then
          { sender := s, recipient := r, ipfsHash := h, timestamp := ts
            isImmutable := true } else st.emails i) == a)
    rw [filter_range'_snoc st.emailCount _ st.emails Email.recipient a, ← hrec a]
    by_cases ha : a = r
    · subst ha
      simp
    · simp [ha, Ne.symm ha]
  · show (if a = s then st.senderEmails a ++ [st.emailCount + 1]
        else st.senderEmails a) =
      (List.range' 1 (st.emailCount + 1)).filter
        (fun i => Email.sender (if i = st.emailCount + 1 then
          { sender := s, recipient := r, ipfsHash := h, timestamp := ts
            isImmutable := true } else st.emails i) == a)
    rw [filter_range'_snoc st.emailCount _ st.emails Email.sender a, ← hsend a]
    by_cases ha : a = s
    · subst ha
      simp
    · simp [ha, Ne.symm ha]

/-- Each successful public call advances `emailCount` by exactly its
number of submissions. -/
theorem applyCall_count {st st' : State} {ts : Nat} {c : Call}
    (h : applyCall st ts c = Except.ok st') :
    st'.emailCount = st.emailCount + submissionCount c := by
  cases c with
  | callLogSend ms r hh =>
    simp only [applyCall] at h
    obtain ⟨id, hok⟩ := exceptMap_snd_ok.mp h
    exact (logEmail_frame hok).2.2.2
  | callLogSendFor ms s r hh =>
    simp only [applyCall] at h
    obtain ⟨id, hok⟩ := exceptMap_snd_ok.mp h
    unfold logSendFor at hok
    split at hok
    · cases hok
    · exact (logEmail_frame hok).2.2.2
  | callRegisterPublicKey ms k =>
    simp only [applyCall] at h
    obtain ⟨-, -, rfl⟩ := (setPublicKey_ok_iff st ms k st').mp h
    rfl
  | callRegisterPublicKeyFor ms u k =>
    simp only [applyCall] at h
    unfold registerPublicKeyFor at h
    split at h
    · cases h
    · obtain ⟨-, -, rfl⟩ := (setPublicKey_ok_iff st u k st').mp h
      rfl
  | callSetRelayAddress ms a =>
    simp only [applyCall] at h
    obtain ⟨-, -, rfl⟩ := (setRelayAddress_ok_iff st ms a st').mp h
    rfl
  | callTransferOwnership ms a =>
    simp only [applyCall] at h
    obtain ⟨-, -, rfl⟩ := (transferOwnership_ok_iff st ms a st').mp h
    rfl

/-- Each successful public call preserves the index invariant. -/
theorem applyCall_indexInv {st st' : State} {ts : Nat} {c : Call}
    (h : applyCall st ts c = Except.ok st') (hinv : indexInv st) :
    indexInv st' := by
  cases c with
  | callLogSend ms r hh =>
    simp only [applyCall] at h
    obtain ⟨id, hok⟩ := exceptMap_snd_ok.mp h
    exact logEmail_indexInv hok hinv
  | callLogSendFor ms s r hh =>
    simp only [applyCall] at h
    obtain ⟨id, hok⟩ := exceptMap_snd_ok.mp h
    unfold logSendFor at hok
    split at hok
    · cases hok
    · exact logEmail_indexInv hok hinv
  | callRegisterPublicKey ms k =>
    simp only [applyCall] at h
    obtain ⟨-, -, rfl⟩ := (setPublicKey_ok_iff st ms k st').mp h
    exact hinv
  | callRegisterPublicKeyFor ms u k =>
    simp only [applyCall] at h
    unfold registerPublicKeyFor at h
    split at h
    · cases h
    · obtain ⟨-, -, rfl⟩ := (setPublicKey_ok_iff st u k st').mp h
      exact hinv
  | callSetRelayAddress ms a =>
    simp only [applyCall] at h
    obtain ⟨-, -, rfl⟩ := (setRelayAddress_ok_iff st ms a st').mp h
    exact hinv
  | callTransferOwnership ms a =>
    simp only [applyCall] at h
    obtain ⟨-, -, rfl⟩ := (transferOwnership_ok_iff st ms a st').mp h
    exact hinv

/-- Along any reachable run, `emailCount` grows by exactly the number of
successful submissions. -/
theorem reach_count {st0 st : State} {n : Nat} (hr : Reach st0 n st) :
    st.emailCount = st0.emailCount + n := by
  induction hr with
  | refl => rfl
  | step c ts hre heq ih =>
    rw [applyCall_count heq, ih]
    omega

/-- The index invariant is preserved along any reachable run. -/
theorem reach_indexInv {st0 st : State} {n : Nat} (hr : Reach st0 n st)
    (h0 : indexInv st0) : indexInv st := by
  induction hr with
  | refl => exact h0
  | step c ts hre heq ih => exact applyCall_indexInv heq ih

/-- The freshly deployed contract satisfies the index invariant. -/
theorem indexInv_deploy (d rl : Nat) : indexInv (deploy d rl) :=
  ⟨fun _ => rfl, fun _ => rfl⟩

/-- One successful `logSend` step from the freshly deployed contract
reaches `demoState`. -/
theorem demoReach : Reach (deploy 1 2) 1 demoState :=
  Reach.step (.callLogSend 5 6 "Qm") 10 (Reach.refl _) rfl

/-- C2: ids are dense, in order from 1, never reused or skipped: in
every state reachable by `n` successful submissions (via `logSend` or
`logSendFor`, any callers, any order, with any other public calls
interleaved), `getTotalEmails` returns `n`, `getEmail k` succeeds for
every `1 ≤ k ≤ n`, and `getEmail` rejects `0` and `n + 1`. -/
theorem idsDenseInOrder (d rl n : Nat) (st : State)
    (hr : Reach (deploy d rl) n st) :
    getTotalEmails st = n ∧
    (∀ k, 1 ≤ k → k ≤ n → ∃ record, getEmail st k = Except.ok record) ∧
    getEmail st 0 = Except.error "Invalid email ID" ∧
    getEmail st (n + 1) = Except.error "Invalid email ID" := by
  have hcount : st.emailCount = n := by
    have hc := reach_count hr
    simpa [deploy] using hc
  refine ⟨hcount, ?_, ?_, ?_⟩
  · intro k h1 h2
    refine ⟨((st.emails k).sender, (st.emails k).recipient, (st.emails k).ipfsHash,
      (st.emails k).timestamp, (st.emails k).isImmutable), ?_⟩
    unfold getEmail
    rw [if_pos ⟨by omega, by omega⟩]
  · unfold getEmail
    rw [if_neg (by omega)]
  · unfold getEmail
    rw [if_neg (by omega)]

/-- Witness for C2 at a concrete run. -/
theorem idsDenseInOrder_witness :
    getTotalEmails demoState = 1 ∧
    (∀ k, 1 ≤ k → k ≤ 1 → ∃ record, getEmail demoState k = Except.ok record) ∧
    getEmail demoState 0 = Except.error "Invalid email ID" ∧
    getEmail demoState 2 = Except.error "Invalid email ID" :=
  idsDenseInOrder 1 2 1 demoState demoReach

/-- C3: every public state-mutating operation, when it succeeds, leaves
every already-stored record (`emails[id]` for `1 ≤ id ≤ emailCount`)
unchanged, and only ever appends to the per-address index lists — no
public operation updates, deletes, removes, or reorders an existing
entry.  (A failing call reverts and changes nothing by construction of
the embedding.) -/
theorem recordsImmutableIndicesAppendOnly (st : State) (ts : Nat) (c : Call)
    (st' : State) (h : applyCall st ts c = Except.ok st') :
    (∀ i, 1 ≤ i → i ≤ st.emailCount → st'.emails i = st.emails i) ∧
    (∀ a, ∃ t, st'.recipientEmails a = st.recipientEmails a ++ t) ∧
    (∀ a, ∃ t, st'.senderEmails a = st.senderEmails a ++ t) := by
  cases c with
  | callLogSend ms r hh =>
    simp only [applyCall] at h
    obtain ⟨id, hok⟩ := exceptMap_snd_ok.mp h
    obtain ⟨hf1, hf2, hf3, -⟩ := logEmail_frame hok
    exact ⟨fun i h1 h2 => hf1 i h2, hf2, hf3⟩
  | callLogSendFor ms s r hh =>
    simp only [applyCall] at h
    obtain ⟨id, hok⟩ := exceptMap_snd_ok.mp h
    unfold logSendFor at hok
    split at hok
    · cases hok
    · obtain ⟨hf1, hf2, hf3, -⟩ := logEmail_frame hok
      exact ⟨fun i h1 h2 => hf1 i h2, hf2, hf3⟩
  | callRegisterPublicKey ms k =>
    simp only [applyCall] at h
    obtain ⟨-, -, rfl⟩ := (setPublicKey_ok_iff st ms k st').mp h
    exact ⟨fun i h1 h2 => rfl, fun a => ⟨[], by simp⟩, fun a => ⟨[], by simp⟩⟩
  | callRegisterPublicKeyFor ms u k =>
    simp only [applyCall] at h
    unfold registerPublicKeyFor at h
    split at h
    · cases h
    · obtain ⟨-, -, rfl⟩ := (setPublicKey_ok_iff st u k st').mp h
      exact ⟨fun i h1 h2 => rfl, fun a => ⟨[], by simp⟩, fun a => ⟨[], by simp⟩⟩
  | callSetRelayAddress ms a =>
    simp only [applyCall] at h
    obtain ⟨-, -, rfl⟩ := (setRelayAddress_ok_iff st ms a st').mp h
    exact ⟨fun i h1 h2 => rfl, fun a => ⟨[], by simp⟩, fun a => ⟨[], by simp⟩⟩
  | callTransferOwnership ms a =>
    simp only [applyCall] at h
    obtain ⟨-, -, rfl⟩ := (transferOwnership_ok_iff st ms a st').mp h
    exact ⟨fun i h1 h2 => rfl, fun a => ⟨[], by simp⟩, fun a => ⟨[], by simp⟩⟩

/-- Witness for C3 at a concrete call. -/
theorem recordsImmutableIndicesAppendOnly_witness :
    ∃ t, demoState.recipientEmails 6 = (deploy 1 2).recipientEmails 6 ++ t :=
  (recordsImmutableIndicesAppendOnly (deploy 1 2) 10 (.callLogSend 5 6 "Qm")
    demoState rfl).2.1 6

/-- C6: in every reachable state, `getRecipientEmails r` is exactly the
list of ids of records whose recipient equals `r`, in creation
(ascending id) order, and symmetrically for `getSenderEmails`. -/
theorem perAddressIndicesExact (d rl n : Nat) (st : State)
    (hr : Reach (deploy d rl) n st) :
    (∀ r, getRecipientEmails st r =
      (List.range' 1 (getTotalEmails st)).filter
        (fun i => (st.emails i).recipient == r)) ∧
    (∀ s, getSenderEmails st s =
      (List.range' 1 (getTotalEmails st)).filter
        (fun i => (st.emails i).sender == s)) :=
  reach_indexInv hr (indexInv_deploy d rl)

/-- Witness for C6 at a concrete run. -/
theorem perAddressIndicesExact_witness :
    getRecipientEmails demoState 6 =
      (List.range' 1 (getTotalEmails demoState)).filter
        (fun i => (demoState.emails i).recipient == 6) :=
  (perAddressIndicesExact 1 2 1 demoState demoReach).1 6

end ChainMail

namespace RelayApi

/-- C9: with all request fields present, the send-email endpoint rejects
with a 500 error whenever required configuration (relay key, RPC
endpoint, contract address) is absent — and then the response does not
depend on the balance or on any transaction outcome, so nothing is
submitted; likewise rejects, before submitting, when the relay balance
is below the configured minimum; and on a failed submission it returns
the thrown error reason verbatim in the response body (as it also does
when the balance query itself fails). -/
theorem sendEmailEndpointGuards (req : SendRequest) (env : Env)
    (hf1 : falsy req.recipientAddress = false)
    (hf2 : falsy req.ipfsHash = false)
    (hf3 : falsy req.userAddress = false) :
    ((falsy env.relayPrivateKey = true ∨
        env.relayPrivateKey = some "your_relay_wallet_private_key_here" ∨
        falsy env.rpcUrl = true ∨ falsy env.contractAddress = true) →
      ∀ b tx,
        (sendEmailPOST req
            { env with getBalance := b, sendTx := tx }).status = 500 ∧
        ((sendEmailPOST req { env with getBalance := b, sendTx := tx }).error =
            some "Relay wallet not configured" ∨
         (sendEmailPOST req { env with getBalance := b, sendTx := tx }).error =
            some "Blockchain configuration missing")) ∧
    (falsy env.relayPrivateKey = false →
      env.relayPrivateKey ≠ some "your_relay_wallet_private_key_here" →
      falsy env.rpcUrl = false → falsy env.contractAddress = false →
      (∀ bal tx, bal < minBalanceWei →
        sendEmailPOST req
            { env with getBalance := Except.ok bal, sendTx := tx } =
          errorResponse 500 "Relay wallet balance too low") ∧
      (∀ bal e, minBalanceWei ≤ bal →
        sendEmailPOST req
            { env with getBalance := Except.ok bal, sendTx := Except.error e } =
          errorResponse 500 e) ∧
      (∀ e tx,
        sendEmailPOST req
            { env with getBalance := Except.error e, sendTx := tx } =
          errorResponse 500 e)) := by
  constructor
  · rintro hcfg b tx
    unfold sendEmailPOST
    rcases hcfg with hc | hc | hc | hc
    · simp [hf1, hf2, hf3, hc, errorResponse]
    · simp [hf1, hf2, hf3, hc, errorResponse]
    · by_cases hkey : (falsy env.relayPrivateKey ||
          env.relayPrivateKey == some "your_relay_wallet_private_key_here") = true
      · simp [hf1, hf2, hf3, hkey, errorResponse]
      · rw [Bool.not_eq_true] at hkey
        simp [hf1, hf2, hf3, hkey, hc, errorResponse]
    · by_cases hkey : (falsy env.relayPrivateKey ||
          env.relayPrivateKey == some "your_relay_wallet_private_key_here") = true
      · simp [hf1, hf2, hf3, hkey, errorResponse]
      · rw [Bool.not_eq_true] at hkey
        simp [hf1, hf2, hf3, hkey, hc, errorResponse]
  · intro h1 h2 h3 h4
    have hbeq : (env.relayPrivateKey ==
        some "your_relay_wallet_private_key_here") = false := by
      simpa using h2
    refine ⟨?_, ?_, ?_⟩
    · intro bal tx hbal
      unfold sendEmailPOST
      simp [hf1, hf2, hf3, h1, h3, h4, hbeq, hbal]
    · intro bal e hbal
      unfold sendEmailPOST
      simp [hf1, hf2, hf3, h1, h3, h4, hbeq, Nat.not_lt.mpr hbal]
    · intro e tx
      unfold sendEmailPOST
      simp [hf1, hf2, hf3, h1, h3, h4, hbeq]

/-- Witness for C9 at a concrete input: a ledger rejection reason is
surfaced verbatim. -/
theorem sendEmailEndpointGuards_witness :
    sendEmailPOST
        { recipientAddress := some "0xb", ipfsHash := some "Qm"
          userAddress := some "0xa" }
        { relayPrivateKey := some "k", rpcUrl := some "u"
          contractAddress := some "c"
          getBalance := Except.ok 1000000000000000
          sendTx := Except.error "Invalid sender address" } =
      errorResponse 500 "Invalid sender address" :=
  ((sendEmailEndpointGuards
      { recipientAddress := some "0xb", ipfsHash := some "Qm"
        userAddress := some "0xa" }
      { relayPrivateKey := some "k", rpcUrl := some "u"
        contractAddress := some "c"
        getBalance := Except.ok 1000000000000000
        sendTx := Except.error "Invalid sender address" }
      rfl rfl rfl).2 rfl (by decide) rfl rfl).2.1 1000000000000000
    "Invalid sender address" (by decide)

end RelayApi
